import Mathlib

/-!
Shallow embedding of the Speedtest connectivity / speed-test engine
(directory app/speedtest_app of the repository): the aligned-interval
clock, connectivity-target resolution, the connectivity-period state
machine over the periods table, the sample-buffering discipline of the
monitor loop, its outage-notification logic, and the speed-test runner.

Python float values (wall-clock seconds, durations, Mbit/s figures) are
modelled as rationals.  ISO-8601 UTC timestamp strings (produced by
time_utils.to_iso_z) are modelled by rationals as well: for a fixed
format the string order and equality agree with the chronological ones,
and the monitor computes differences of the underlying instants.
Effectful inputs (the monotonic clock, network reads, the ookla client)
enter the definitions as explicit oracle arguments.
-/

namespace Speedtest

/-- Python float modulo x % y (for a positive modulus, as applied to the
nonnegative elapsed-seconds value in the scheduler): x - y * floor (x / y). -/
def pyFmod (x y : ℚ) : ℚ := x - y * ⌊x / y⌋

/-- scheduler.py, _seconds_until_next_aligned: seconds until the next
interval boundary measured from local midnight.  elapsed stands for
(now - midnight).total_seconds(). -/
def _seconds_until_next_aligned (interval_seconds : ℚ) (elapsed : ℚ) : ℚ :=
  let i := max (1/10) interval_seconds
  let remainder := pyFmod elapsed i
  if remainder < 1/100 then i
  else max (1/1000) (i - remainder)

lemma pyFmod_eq_fract (x y : ℚ) (hy : y ≠ 0) : pyFmod x y = y * Int.fract (x / y) := by
  unfold pyFmod Int.fract
  field_simp

lemma pyFmod_nonneg (x y : ℚ) (hy : 0 < y) : 0 ≤ pyFmod x y := by
  rw [pyFmod_eq_fract x y hy.ne']
  exact mul_nonneg hy.le (Int.fract_nonneg _)

lemma pyFmod_lt (x y : ℚ) (hy : 0 < y) : pyFmod x y < y := by
  rw [pyFmod_eq_fract x y hy.ne']
  calc y * Int.fract (x / y) < y * 1 := mul_lt_mul_of_pos_left (Int.fract_lt_one _) hy
    _ = y := mul_one y

lemma pyFmod_mul_natCast (y : ℚ) (hy : y ≠ 0) (k : ℕ) : pyFmod (y * k) y = 0 := by
  unfold pyFmod
  rw [mul_comm y (k : ℚ), mul_div_assoc, div_self hy, mul_one, Int.floor_natCast]
  push_cast
  ring

/-- C6, the claim as the spec states it: with interval 900 the aligner
returns 0 only exactly on a boundary and otherwise returns
900 - (elapsed mod 900).  False: at elapsed = 1/200 (0.005 s past a
boundary, not a multiple of 900) the code returns a full 900, not
900 - 1/200; the sub-0.01 guard clause rounds up to a whole interval. -/
theorem C6_aligner_counterexample :
    ¬ (∀ elapsed : ℚ, 0 ≤ elapsed →
        (_seconds_until_next_aligned 900 elapsed = 0 → ∃ k : ℕ, elapsed = 900 * k) ∧
        ((¬ ∃ k : ℕ, elapsed = 900 * k) →
          _seconds_until_next_aligned 900 elapsed = 900 - pyFmod elapsed 900)) := by
  intro h
  have h2 := (h (1/200) (by norm_num)).2
  have hnm : ¬ ∃ k : ℕ, (1/200 : ℚ) = 900 * k := by
    rintro ⟨k, hk⟩
    rcases Nat.eq_zero_or_pos k with h0 | hpos
    · rw [h0] at hk
      norm_num at hk
    · have hk1 : (1 : ℚ) ≤ (k : ℚ) := by exact_mod_cast hpos
      nlinarith [hk]
  have hval : _seconds_until_next_aligned 900 (1/200) = 900 := by
    unfold _seconds_until_next_aligned pyFmod
    norm_num
  have hmod : pyFmod (1/200) 900 = 1/200 := by
    unfold pyFmod
    norm_num
  have := h2 hnm
  rw [hval, hmod] at this
  norm_num at this

/-- C6 amended: with interval 900, the aligner never returns 0; whenever
elapsed mod 900 < 0.01 (in particular at every exact multiple of 900) it
returns the full 900; otherwise it returns max (0.001, 900 - (elapsed mod 900)). -/
theorem C6_aligner_amended (elapsed : ℚ) (_h : 0 ≤ elapsed) :
    _seconds_until_next_aligned 900 elapsed ≠ 0 ∧
    (pyFmod elapsed 900 < 1/100 → _seconds_until_next_aligned 900 elapsed = 900) ∧
    ((∃ k : ℕ, elapsed = 900 * k) → _seconds_until_next_aligned 900 elapsed = 900) ∧
    (1/100 ≤ pyFmod elapsed 900 →
      _seconds_until_next_aligned 900 elapsed = max (1/1000) (900 - pyFmod elapsed 900)) := by
  have hmax : max (1/10 : ℚ) 900 = 900 := by norm_num
  have hbranch : _seconds_until_next_aligned 900 elapsed =
      if pyFmod elapsed 900 < 1/100 then (900 : ℚ)
      else max (1/1000) (900 - pyFmod elapsed 900) := by
    unfold _seconds_until_next_aligned
    rw [hmax]
  refine ⟨?_, ?_, ?_, ?_⟩
  · rw [hbranch]
    by_cases hc : pyFmod elapsed 900 < 1/100
    · rw [if_pos hc]
      norm_num
    · rw [if_neg hc]
      intro h0
      have hle := le_max_left (1/1000 : ℚ) (900 - pyFmod elapsed 900)
      rw [h0] at hle
      norm_num at hle
  · intro hc
    rw [hbranch, if_pos hc]
  · rintro ⟨k, hk⟩
    have hz : pyFmod elapsed 900 = 0 := by
      rw [hk]
      exact pyFmod_mul_natCast 900 (by norm_num) k
    rw [hbranch, if_pos (by rw [hz]; norm_num)]
  · intro hc
    rw [hbranch, if_neg (not_lt.mpr hc)]

/-- Witness for C6_aligner_amended at elapsed = 450. -/
theorem C6_aligner_amended_witness :
    _seconds_until_next_aligned 900 450 ≠ 0 ∧
    (pyFmod 450 900 < 1/100 → _seconds_until_next_aligned 900 450 = 900) ∧
    ((∃ k : ℕ, (450 : ℚ) = 900 * k) → _seconds_until_next_aligned 900 450 = 900) ∧
    (1/100 ≤ pyFmod 450 900 →
      _seconds_until_next_aligned 900 450 = max (1/1000) (900 - pyFmod 450 900)) :=
  C6_aligner_amended 450 (by norm_num)

/-- C7, the claim as the spec states it: for any interval of at least
0.1 s, landing within 0.01 s of a boundary on either side yields a full
interval.  False: just before a boundary (interval = 900, elapsed =
899.999, i.e. 0.001 before the boundary) the code returns the clamped
near-zero remainder 0.001, not a full interval; only the side just
after a boundary is guarded. -/
theorem C7_boundary_counterexample :
    ¬ (∀ interval elapsed : ℚ, 1/10 ≤ interval → 0 ≤ elapsed →
        (pyFmod elapsed interval < 1/100 ∨ interval - pyFmod elapsed interval < 1/100) →
        _seconds_until_next_aligned interval elapsed = interval) := by
  intro h
  have hnear : (900 : ℚ) - pyFmod (899999/1000) 900 < 1/100 := by
    unfold pyFmod
    norm_num
  have := h 900 (899999/1000) (by norm_num) (by norm_num) (Or.inr hnear)
  have hval : _seconds_until_next_aligned 900 (899999/1000) = 1/1000 := by
    unfold _seconds_until_next_aligned pyFmod
    norm_num
  rw [hval] at this
  norm_num at this

/-- C7 amended: for any interval of at least 0.1 s, whenever the calling
instant is within 0.01 s after an interval boundary (elapsed mod interval
< 0.01) the aligner returns the full interval rather than a near-zero
sleep; the guard does not cover instants just before a boundary. -/
theorem C7_boundary_amended (interval elapsed : ℚ) (hi : 1/10 ≤ interval)
    (hr : pyFmod elapsed interval < 1/100) :
    _seconds_until_next_aligned interval elapsed = interval := by
  have hmax : max (1/10 : ℚ) interval = interval := max_eq_right hi
  unfold _seconds_until_next_aligned
  rw [hmax, if_pos hr]

/-- Witness for C7_boundary_amended at interval = 900, elapsed = 0. -/
theorem C7_boundary_amended_witness : _seconds_until_next_aligned 900 0 = 900 :=
  C7_boundary_amended 900 0 (by norm_num) (by unfold pyFmod; norm_num)

/-! ## connectivity.py: target resolution -/

/-- The whitespace class of Python str.strip() restricted to ASCII
(space, tab, newline, carriage return, vertical tab, form feed). -/
def pyIsSpace (c : Char) : Bool :=
  c = ' ' || c = '\t' || c = '\n' || c = '\r' || c = '\x0b' || c = '\x0c'

/-- Python str.strip(): drop leading and trailing whitespace. -/
def pyStrip (s : String) : String :=
  String.mk (((s.data.dropWhile pyIsSpace).reverse.dropWhile pyIsSpace).reverse)

/-- Result of Python urllib.parse.urlparse as consumed by resolve_target:
hostname (None when absent), explicit port (None when absent) and scheme. -/
structure ParsedUrl where
  hostname : Option String
  port : Option Nat
  scheme : String

/-- connectivity.py, resolve_target: map a configured target string to a
(host, port) pair.  urlparse is the URL parser, passed as an oracle and
consulted only on targets containing "://" (Python: '"://" in t'). -/
def resolve_target (urlparse : String → ParsedUrl) (target : Option String)
    (default_port : Nat) : String × Nat :=
  let t := pyStrip (target.getD "")
  if t = "" then ("google.com", default_port)
  else if (t.splitOn "://").length ≥ 2 then
    let parsed := urlparse t
    let host := parsed.hostname.getD ""
    if host = "" then (t, default_port)
    else if parsed.port.getD 0 ≠ 0 then (host, parsed.port.getD 0)
    else
      let scheme := parsed.scheme.toLower
      if scheme = "https" then (host, 443)
      else if scheme = "http" then (host, 80)
      else (host, default_port)
  else (t, default_port)

lemma pyStrip_eq_empty_of_all_space (s : String) (h : ∀ c ∈ s.data, pyIsSpace c) :
    pyStrip s = "" := by
  unfold pyStrip
  have h1 : s.data.dropWhile pyIsSpace = [] := List.dropWhile_eq_nil_iff.mpr h
  rw [h1]
  rfl

/-- C10: for every default port and every URL parser, resolve_target on an
empty or whitespace-only target (or a missing target) silently falls back
to the pair ("google.com", default_port). -/
theorem C10_resolve_target_fallback (urlparse : String → ParsedUrl)
    (default_port : Nat) (target : Option String)
    (h : ∀ s, target = some s → ∀ c ∈ s.data, pyIsSpace c) :
    resolve_target urlparse target default_port = ("google.com", default_port) := by
  unfold resolve_target
  have hstrip : pyStrip (target.getD "") = "" := by
    cases target with
    | none => rfl
    | some s => exact pyStrip_eq_empty_of_all_space s (h s rfl)
  rw [hstrip]
  rfl

/-- Witness for C10_resolve_target_fallback on the target " \t " with
default port 443 and a trivial URL parser. -/
theorem C10_resolve_target_fallback_witness :
    resolve_target (fun _ => ⟨none, none, ""⟩) (some " \t ") 443 = ("google.com", 443) :=
  C10_resolve_target_fallback (fun _ => ⟨none, none, ""⟩) 443 (some " \t ")
    (by intro s hs; cases hs; decide)

/-! ## db.py: the connectivity_periods table and record_connectivity -/

/-- A row of the connectivity_periods table (db.py, ensure_db). -/
structure ConnectivityPeriod where
  id : Nat
  started_at : ℚ
  ended_at : Option ℚ
  is_up : Bool
deriving DecidableEq

/-- The open row with the greatest id, i.e.
SELECT ... WHERE ended_at IS NULL ORDER BY id DESC LIMIT 1. -/
def openRowMaxId (db : List ConnectivityPeriod) : Option ConnectivityPeriod :=
  (db.filter fun p => p.ended_at.isNone).foldl
    (fun acc p =>
      match acc with
      | none => some p
      | some q => if q.id < p.id then some p else some q)
    none

/-- db.py, get_current_connectivity_period. -/
def get_current_connectivity_period (db : List ConnectivityPeriod) :
    Option ConnectivityPeriod :=
  openRowMaxId db

/-- The id AUTOINCREMENT assigns to the next insert: one more than the
largest id in use (1 on an empty table; the table is insert-only). -/
def nextId (db : List ConnectivityPeriod) : Nat :=
  db.foldl (fun acc p => max acc (p.id + 1)) 1

/-- db.py, record_connectivity: look up the open row; if none, insert a new
open row; if its state equals the sample, return without writing; otherwise
set its ended_at to the sample timestamp and insert a new open row with the
same timestamp. -/
def record_connectivity (db : List ConnectivityPeriod) (is_up : Bool) (now : ℚ) :
    List ConnectivityPeriod :=
  match openRowMaxId db with
  | none => db ++ [⟨nextId db, now, none, is_up⟩]
  | some current =>
    if current.is_up = is_up then db
    else
      (db.map fun p => if p.id = current.id then { p with ended_at := some now } else p)
        ++ [⟨nextId db, now, none, is_up⟩]

/-- C1: the three-way case split of record_connectivity: no open period
inserts a fresh open one; an open period in the same state is a no-op (and
hence a second identical call writes nothing either); an open period in the
other state is closed at the timestamp and a new open period starts at that
same timestamp with the new state. -/
theorem C1_record_connectivity_cases (db : List ConnectivityPeriod) (is_up : Bool) (now : ℚ) :
    (get_current_connectivity_period db = none →
      record_connectivity db is_up now =
        db ++ [⟨nextId db, now, none, is_up⟩]) ∧
    (∀ cur, get_current_connectivity_period db = some cur → cur.is_up = is_up →
      record_connectivity db is_up now = db ∧
      record_connectivity (record_connectivity db is_up now) is_up now = db) ∧
    (∀ cur, get_current_connectivity_period db = some cur → cur.is_up ≠ is_up →
      record_connectivity db is_up now =
        (db.map fun p => if p.id = cur.id then { p with ended_at := some now } else p)
          ++ [⟨nextId db, now, none, is_up⟩]) := by
  refine ⟨?_, ?_, ?_⟩
  · intro h
    have h2 : openRowMaxId db = none := h
    unfold record_connectivity
    rw [h2]
  · intro cur hcur hup
    have h2 : openRowMaxId db = some cur := hcur
    have hfst : record_connectivity db is_up now = db := by
      unfold record_connectivity
      rw [h2]
      exact if_pos hup
    refine ⟨hfst, ?_⟩
    rw [hfst, hfst]
  · intro cur hcur hup
    have h2 : openRowMaxId db = some cur := hcur
    unfold record_connectivity
    rw [h2]
    exact if_neg hup

/-- Witness for C1_record_connectivity_cases: flipping a single open Up
period to Down at time 5 closes it at 5 and opens a Down period at 5. -/
theorem C1_record_connectivity_cases_witness :
    record_connectivity [⟨1, 0, none, true⟩] false 5 =
      ([⟨1, 0, none, true⟩].map
        fun p => if p.id = 1 then { p with ended_at := some (5 : ℚ) } else p)
        ++ [⟨2, 5, none, false⟩] :=
  (C1_record_connectivity_cases [⟨1, 0, none, true⟩] false 5).2.2
    ⟨1, 0, none, true⟩ rfl (by simp)

/-! ### The open-period invariant (C2) -/

/-- The periods table produced by a sequence of record_connectivity calls
(samples (is_up, timestamp)) against an initially empty table. -/
def runCalls (calls : List (Bool × ℚ)) : List ConnectivityPeriod :=
  calls.foldl (fun db c => record_connectivity db c.1 c.2) []

/-- Shape invariant maintained by record_connectivity on a nonempty table:
every row but the final one is closed, the final row is open, ids are
pairwise distinct, and adjacent rows are contiguous (ended_at = next
started_at) with strictly increasing started_at. -/
def PeriodsInv (db : List ConnectivityPeriod) : Prop :=
  ∃ front lastRow, db = front ++ [lastRow] ∧
    lastRow.ended_at = none ∧
    (∀ p ∈ front, p.ended_at.isSome) ∧
    List.Pairwise (fun a b => a.id ≠ b.id) db ∧
    List.Chain' (fun a b => a.ended_at = some b.started_at) db ∧
    List.Chain' (fun a b => a.started_at < b.started_at) db

lemma map_eq_self_of_fix {α : Type} (l : List α) (f : α → α) (h : ∀ x ∈ l, f x = x) :
    l.map f = l := by
  induction l with
  | nil => rfl
  | cons a t ih =>
    simp only [List.map_cons]
    rw [h a (by simp), ih (fun x hx => h x (by simp [hx]))]

lemma filter_open_of_shape (front : List ConnectivityPeriod) (lastRow : ConnectivityPeriod)
    (hclosed : ∀ p ∈ front, p.ended_at.isSome) (hopen : lastRow.ended_at = none) :
    (front ++ [lastRow]).filter (fun p => p.ended_at.isNone) = [lastRow] := by
  rw [List.filter_append]
  have h1 : front.filter (fun p => p.ended_at.isNone) = [] := by
    apply List.filter_eq_nil_iff.mpr
    intro p hp
    simp [Option.isNone_iff_eq_none]
    intro hnone
    have := hclosed p hp
    rw [hnone] at this
    simp at this
  have h2 : [lastRow].filter (fun p => p.ended_at.isNone) = [lastRow] := by
    simp [List.filter, hopen]
  rw [h1, h2]
  rfl

lemma openRowMaxId_of_shape (front : List ConnectivityPeriod) (lastRow : ConnectivityPeriod)
    (hclosed : ∀ p ∈ front, p.ended_at.isSome) (hopen : lastRow.ended_at = none) :
    openRowMaxId (front ++ [lastRow]) = some lastRow := by
  unfold openRowMaxId
  rw [filter_open_of_shape front lastRow hclosed hopen]
  rfl

lemma le_foldl_nextId (l : List ConnectivityPeriod) :
    ∀ a : Nat, a ≤ l.foldl (fun acc p => max acc (p.id + 1)) a := by
  induction l with
  | nil => intro a; exact le_refl a
  | cons q t ih =>
    intro a
    exact le_trans (le_max_left a (q.id + 1)) (ih (max a (q.id + 1)))

lemma mem_id_lt_foldl_nextId (l : List ConnectivityPeriod) :
    ∀ (a : Nat) (p : ConnectivityPeriod), p ∈ l →
      p.id < l.foldl (fun acc q => max acc (q.id + 1)) a := by
  induction l with
  | nil => intro a p hp; cases hp
  | cons q t ih =>
    intro a p hp
    rcases List.mem_cons.mp hp with h | h
    · subst h
      calc p.id < p.id + 1 := Nat.lt_succ_self _
        _ ≤ max a (p.id + 1) := le_max_right _ _
        _ ≤ _ := le_foldl_nextId t _
    · exact ih _ p h

lemma mem_id_lt_nextId (db : List ConnectivityPeriod) (p : ConnectivityPeriod) (hp : p ∈ db) :
    p.id < nextId db :=
  mem_id_lt_foldl_nextId db 1 p hp

lemma record_connectivity_step (db : List ConnectivityPeriod) (b : Bool) (ts : ℚ)
    (hInv : PeriodsInv db) (hub : ∀ p ∈ db, p.started_at < ts) :
    PeriodsInv (record_connectivity db b ts) ∧
    ∀ p ∈ record_connectivity db b ts, p.started_at ≤ ts := by
  obtain ⟨front, lastRow, hdb, hopen, hclosed, hpair, hchainE, hchainS⟩ := hInv
  have hfind : openRowMaxId db = some lastRow := by
    rw [hdb]
    exact openRowMaxId_of_shape front lastRow hclosed hopen
  have hlastmem : lastRow ∈ db := by rw [hdb]; simp
  have hlastlt : lastRow.started_at < ts := hub lastRow hlastmem
  by_cases hsame : lastRow.is_up = b
  · have hrec : record_connectivity db b ts = db := by
      unfold record_connectivity
      rw [hfind]
      exact if_pos hsame
    rw [hrec]
    exact ⟨⟨front, lastRow, hdb, hopen, hclosed, hpair, hchainE, hchainS⟩,
      fun p hp => (hub p hp).le⟩
  · have hpairShape := hdb ▸ hpair
    have hchainEShape := hdb ▸ hchainE
    have hchainSShape := hdb ▸ hchainS
    have hfrontid : ∀ p ∈ front, p.id ≠ lastRow.id := by
      intro p hp
      exact (List.pairwise_append.mp hpairShape).2.2 p hp lastRow (by simp)
    have hmapfront :
        front.map (fun p => if p.id = lastRow.id then { p with ended_at := some ts } else p)
          = front :=
      map_eq_self_of_fix front _ (fun p hp => if_neg (hfrontid p hp))
    have hrec : record_connectivity db b ts =
        front ++ [{ lastRow with ended_at := some ts },
          ⟨nextId db, ts, none, b⟩] := by
      unfold record_connectivity
      rw [hfind]
      show (if lastRow.is_up = b then db
          else (db.map fun p =>
              if p.id = lastRow.id then { p with ended_at := some ts } else p)
            ++ [⟨nextId db, ts, none, b⟩]) =
          front ++ [{ lastRow with ended_at := some ts }, ⟨nextId db, ts, none, b⟩]
      rw [if_neg hsame, hdb, List.map_append, hmapfront]
      simp
    constructor
    · refine ⟨front ++ [{ lastRow with ended_at := some ts }], ⟨nextId db, ts, none, b⟩,
        ?_, rfl, ?_, ?_, ?_, ?_⟩
      · rw [hrec, List.append_assoc]
        rfl
      · intro p hp
        rcases List.mem_append.mp hp with h | h
        · exact hclosed p h
        · rw [List.mem_singleton.mp h]
          rfl
      · rw [hrec]
        have hC : (front ++ [{ lastRow with ended_at := some ts },
            ⟨nextId db, ts, none, b⟩]) =
            front ++ ([{ lastRow with ended_at := some ts }] ++
              [(⟨nextId db, ts, none, b⟩ : ConnectivityPeriod)]) := rfl
        rw [hC]
        apply List.pairwise_append.mpr
        refine ⟨(List.pairwise_append.mp hpairShape).1, ?_, ?_⟩
        · apply List.pairwise_append.mpr
          refine ⟨List.pairwise_singleton _ _, List.pairwise_singleton _ _, ?_⟩
          intro a ha b2 hb2
          rw [List.mem_singleton.mp ha, List.mem_singleton.mp hb2]
          exact Nat.ne_of_lt (mem_id_lt_nextId db lastRow hlastmem)
        · intro a ha b2 hb2
          rcases List.mem_append.mp hb2 with h | h
          · rw [List.mem_singleton.mp h]
            exact hfrontid a ha
          · rw [List.mem_singleton.mp h]
            exact Nat.ne_of_lt
              (mem_id_lt_nextId db a (by rw [hdb]; exact List.mem_append_left _ ha))
      · rw [hrec]
        apply List.chain'_append.mpr
        refine ⟨(List.chain'_append.mp hchainEShape).1, ?_, ?_⟩
        · apply List.chain'_cons.mpr
          exact ⟨rfl, List.chain'_singleton _⟩
        · intro x hx y hy
          have hy2 : y = { lastRow with ended_at := some ts } := by
            simp at hy
            exact hy.symm
          rw [hy2]
          have := (List.chain'_append.mp hchainEShape).2.2 x hx lastRow (by simp)
          exact this
      · rw [hrec]
        apply List.chain'_append.mpr
        refine ⟨(List.chain'_append.mp hchainSShape).1, ?_, ?_⟩
        · apply List.chain'_cons.mpr
          exact ⟨hlastlt, List.chain'_singleton _⟩
        · intro x hx y hy
          have hy2 : y = { lastRow with ended_at := some ts } := by
            simp at hy
            exact hy.symm
          rw [hy2]
          exact (List.chain'_append.mp hchainSShape).2.2 x hx lastRow (by simp)
    · intro p hp
      rw [hrec] at hp
      rcases List.mem_append.mp hp with h | h
      · exact (hub p (by rw [hdb]; exact List.mem_append_left _ h)).le
      · rcases List.mem_cons.mp h with h2 | h2
        · rw [h2]
          exact hlastlt.le
        · rw [List.mem_singleton.mp h2]

lemma runCalls_fold_inv :
    ∀ (calls : List (Bool × ℚ)) (db : List ConnectivityPeriod) (t : ℚ),
      PeriodsInv db → (∀ p ∈ db, p.started_at ≤ t) →
      List.Chain (fun a b : ℚ => a < b) t (calls.map Prod.snd) →
      PeriodsInv (calls.foldl (fun d c => record_connectivity d c.1 c.2) db) := by
  intro calls
  induction calls with
  | nil =>
    intro db t hInv _ _
    exact hInv
  | cons c rest ih =>
    intro db t hInv hub hchain
    rw [List.map_cons] at hchain
    cases hchain with
    | cons h1 h2 =>
      rw [List.foldl_cons]
      have hub' : ∀ p ∈ db, p.started_at < c.2 := fun p hp => lt_of_le_of_lt (hub p hp) h1
      obtain ⟨hInv', hub2⟩ := record_connectivity_step db c.1 c.2 hInv hub'
      exact ih (record_connectivity db c.1 c.2) c.2 hInv' hub2 h2

/-- C2: starting from an empty periods table, after any nonempty sequence of
record_connectivity calls with strictly increasing timestamps, exactly one
period is open (ended_at = null), and the table — which is in strictly
increasing started_at order, so this is the ORDER BY started_at order — is
contiguous: each period's ended_at equals the next period's started_at.
(Every point of the sequence is itself such a prefix, so this holds at every
point after the first call.) -/
theorem C2_periods_invariant (calls : List (Bool × ℚ)) (hne : calls ≠ [])
    (hmono : List.Chain' (fun a b : Bool × ℚ => a.2 < b.2) calls) :
    ((runCalls calls).filter fun p => p.ended_at.isNone).length = 1 ∧
    List.Chain' (fun a b => a.started_at < b.started_at) (runCalls calls) ∧
    List.Chain' (fun a b => a.ended_at = some b.started_at) (runCalls calls) := by
  obtain ⟨c, rest, rfl⟩ : ∃ c rest, calls = c :: rest := by
    cases calls with
    | nil => exact absurd rfl hne
    | cons c rest => exact ⟨c, rest, rfl⟩
  have hfirst : record_connectivity [] c.1 c.2 = [⟨1, c.2, none, c.1⟩] := rfl
  have hInv1 : PeriodsInv [⟨1, c.2, none, c.1⟩] :=
    ⟨[], ⟨1, c.2, none, c.1⟩, rfl, rfl, by simp, by simp, by simp, by simp⟩
  have hub1 : ∀ p ∈ [(⟨1, c.2, none, c.1⟩ : ConnectivityPeriod)], p.started_at ≤ c.2 := by
    intro p hp
    rw [List.mem_singleton.mp hp]
  have hchainPairs : List.Chain (fun a b : Bool × ℚ => a.2 < b.2) c rest := hmono
  have hchain : List.Chain (fun a b : ℚ => a < b) c.2 (rest.map Prod.snd) :=
    (List.chain_map Prod.snd).mpr hchainPairs
  have hInvFinal : PeriodsInv (runCalls (c :: rest)) := by
    unfold runCalls
    rw [List.foldl_cons, hfirst]
    exact runCalls_fold_inv rest _ c.2 hInv1 hub1 hchain
  obtain ⟨front, lastRow, hdb, hopen, hclosed, hpair, hchainE, hchainS⟩ := hInvFinal
  refine ⟨?_, hchainS, hchainE⟩
  rw [hdb, filter_open_of_shape front lastRow hclosed hopen]
  rfl

/-- Witness for C2_periods_invariant on the sample sequence
Up at 1, Down at 2, Up at 3. -/
theorem C2_periods_invariant_witness :
    ((runCalls [(true, 1), (false, 2), (true, 3)]).filter
        fun p => p.ended_at.isNone).length = 1 ∧
    List.Chain' (fun a b => a.started_at < b.started_at)
      (runCalls [(true, 1), (false, 2), (true, 3)]) ∧
    List.Chain' (fun a b => a.ended_at = some b.started_at)
      (runCalls [(true, 1), (false, 2), (true, 3)]) :=
  C2_periods_invariant [(true, 1), (false, 2), (true, 3)]
    (List.cons_ne_nil _ _) (by norm_num)

/-! ## scheduler.py, connectivity_loop: outage notifications (C5) -/

/-- Monitor configuration read by the notification logic: whether the SMTP
sink is configured (config.py, smtp_enabled) and the minimum outage length
that fires a notification (smtp_min_outage_seconds). -/
structure MonitorCfg where
  smtp_enabled : Bool
  smtp_min_outage_seconds : ℚ

/-- Loop-local state of connectivity_loop relevant to notifications:
previous sample state, in-memory outage start marker, and the
(start, end, duration) triples handed to send_outage_notification so far. -/
structure MonitorState where
  last_is_up : Option Bool
  outage_started_at : Option ℚ
  notifications : List (ℚ × ℚ × ℚ)

/-- One iteration of the state-change detection and notification block of
connectivity_loop (scheduler.py, lines 200-234) on the sample
(is_up, now): on Up-to-Down remember the outage start; on Down-to-Up,
if SMTP is configured and an outage start is set, notify when the outage
lasted at least the threshold, then clear the marker; finally always set
last_is_up to the sample. -/
def connectivity_step (cfg : MonitorCfg) (s : MonitorState) (sample : Bool × ℚ) :
    MonitorState :=
  let is_up := sample.1
  let now := sample.2
  let s1 :=
    match s.last_is_up with
    | none => s
    | some lastUp =>
      if is_up ≠ lastUp then
        if is_up = false then { s with outage_started_at := some now }
        else
          let s2 :=
            if cfg.smtp_enabled then
              match s.outage_started_at with
              | some t0 =>
                if cfg.smtp_min_outage_seconds ≤ now - t0 then
                  { s with notifications := s.notifications ++ [(t0, now, now - t0)] }
                else s
              | none => s
            else s
          { s2 with outage_started_at := none }
      else s
  { s1 with last_is_up := some is_up }

lemma connectivity_step_down_noop (cfg : MonitorCfg) (s : MonitorState) (u : ℚ)
    (hlast : s.last_is_up = some false) :
    connectivity_step cfg s (false, u) = s := by
  obtain ⟨lu, out, notifs⟩ := s
  simp only [MonitorState.last_is_up] at hlast
  subst hlast
  unfold connectivity_step
  simp

lemma connectivity_step_up_flip (cfg : MonitorCfg) (notifs : List (ℚ × ℚ × ℚ))
    (t0 t : ℚ) :
    connectivity_step cfg ⟨some false, some t0, notifs⟩ (true, t) =
      ⟨some true, none,
        notifs ++ (if cfg.smtp_enabled = true ∧ cfg.smtp_min_outage_seconds ≤ t - t0
          then [(t0, t, t - t0)] else [])⟩ := by
  unfold connectivity_step
  by_cases he : cfg.smtp_enabled
  · by_cases hth : cfg.smtp_min_outage_seconds ≤ t - t0
    · simp [he, hth]
    · simp [he, hth]
  · simp [he]

/-- C5: from a state inside an outage (previous sample Down, outage start
marker t0), after any number of further Down samples followed by the
restoring Up sample at time t, the sink has been invoked exactly once
with (t0, t, t - t0) if SMTP is configured and t - t0 is at least the
threshold (equality fires), and not at all otherwise; the duration is
t - t0 regardless of how many same-state samples intervened.  Afterwards
the outage marker is cleared and last_is_up is Up. -/
theorem C5_outage_notification (cfg : MonitorCfg) (s : MonitorState) (t0 : ℚ)
    (mid : List ℚ) (t : ℚ)
    (hlast : s.last_is_up = some false) (hout : s.outage_started_at = some t0) :
    (((mid.map fun u => (false, u)) ++ [(true, t)]).foldl
        (connectivity_step cfg) s).notifications
      = s.notifications ++
        (if cfg.smtp_enabled = true ∧ cfg.smtp_min_outage_seconds ≤ t - t0
          then [(t0, t, t - t0)] else []) ∧
    (((mid.map fun u => (false, u)) ++ [(true, t)]).foldl
        (connectivity_step cfg) s).outage_started_at = none ∧
    (((mid.map fun u => (false, u)) ++ [(true, t)]).foldl
        (connectivity_step cfg) s).last_is_up = some true := by
  induction mid with
  | nil =>
    simp only [List.map_nil, List.nil_append, List.foldl_cons, List.foldl_nil]
    obtain ⟨lu, out, notifs⟩ := s
    simp only [MonitorState.last_is_up] at hlast
    simp only [MonitorState.outage_started_at] at hout
    subst hlast
    subst hout
    rw [connectivity_step_up_flip]
    exact ⟨rfl, rfl, rfl⟩
  | cons u rest ih =>
    simp only [List.map_cons, List.cons_append, List.foldl_cons]
    rw [connectivity_step_down_noop cfg s u hlast]
    exact ih

/-- Witness for C5_outage_notification: outage from 0, Down samples at 10
and 20, restored at 60 with threshold 60 and SMTP configured. -/
theorem C5_outage_notification_witness :
    ((([10, 20].map fun u : ℚ => (false, u)) ++ [(true, 60)]).foldl
        (connectivity_step ⟨true, 60⟩)
        ⟨some false, some 0, []⟩).notifications
      = ([] : List (ℚ × ℚ × ℚ)) ++
        (if (true = true) ∧ (60 : ℚ) ≤ 60 - 0 then [(0, 60, 60 - 0)] else []) ∧
    ((([10, 20].map fun u : ℚ => (false, u)) ++ [(true, 60)]).foldl
        (connectivity_step ⟨true, 60⟩)
        ⟨some false, some 0, []⟩).outage_started_at = none ∧
    ((([10, 20].map fun u : ℚ => (false, u)) ++ [(true, 60)]).foldl
        (connectivity_step ⟨true, 60⟩)
        ⟨some false, some 0, []⟩).last_is_up = some true :=
  C5_outage_notification ⟨true, 60⟩ ⟨some false, some 0, []⟩ 0 [10, 20] 60 rfl rfl

/-! ## scheduler.py, connectivity_loop: the check buffer (C8) -/

/-- A raw connectivity sample as buffered by the loop:
(checked_at, is_up, latency_ms). -/
abbrev Check := ℚ × Bool × ℚ

/-- Persistence state of the sample path of connectivity_loop: pending is
the in-memory buffer, batchWrites the arguments of the
record_connectivity_checks_batch calls made so far, singleWrites the
samples written one-by-one through record_connectivity_check. -/
structure BufState where
  pending : List Check
  batchWrites : List (List Check)
  singleWrites : List Check

/-- One sample through the buffering branch of connectivity_loop
(scheduler.py, lines 191-196): write-through when both thresholds are
disabled, otherwise append and flush when the count threshold is reached or
the time threshold expired (the sample's Bool is the oracle for the
monotonic-clock comparison at that instant). -/
def buffer_step (buffer_seconds : ℚ) (buffer_max : Nat) (s : BufState)
    (sample : Check × Bool) : BufState :=
  let c := sample.1
  let timeTrigger := sample.2
  if buffer_seconds ≤ 0 ∧ buffer_max ≤ 1 then
    { s with singleWrites := s.singleWrites ++ [c] }
  else
    let pending := s.pending ++ [c]
    if buffer_max ≤ pending.length ∨ timeTrigger = true then
      { s with pending := [], batchWrites := s.batchWrites ++ [pending] }
    else
      { s with pending := pending }

/-- The sample-persistence effect of a run of the connectivity loop over the
given samples, with the loop-top clamping of the two buffer settings
(scheduler.py, lines 179-180). -/
def buffer_loop (buffer_seconds : ℚ) (buffer_max : Nat)
    (input : List (Check × Bool)) : BufState :=
  input.foldl (buffer_step (max 0 buffer_seconds) (max 1 buffer_max)) ⟨[], [], []⟩

/-- The unconditional flush in the finally block of connectivity_loop
(_flush_pending is a no-op on an empty buffer), run on loop termination,
normal or cancelled. -/
def buffer_finalize (s : BufState) : BufState :=
  if s.pending = [] then s
  else { s with pending := [], batchWrites := s.batchWrites ++ [s.pending] }

lemma buffer_loop_content_buffered (bsec : ℚ) (m : Nat) (hmode : ¬(bsec ≤ 0 ∧ m ≤ 1)) :
    ∀ (input : List (Check × Bool)) (s : BufState),
      ((input.foldl (buffer_step bsec m) s).batchWrites.flatten
          ++ (input.foldl (buffer_step bsec m) s).pending
        = s.batchWrites.flatten ++ s.pending ++ input.map Prod.fst) ∧
      (input.foldl (buffer_step bsec m) s).singleWrites = s.singleWrites := by
  intro input
  induction input with
  | nil =>
    intro s
    simp
  | cons a rest ih =>
    intro s
    rw [List.foldl_cons]
    obtain ⟨h1, h2⟩ := ih (buffer_step bsec m s a)
    by_cases hfl : m ≤ (s.pending ++ [a.1]).length ∨ a.2 = true
    · have hstep : buffer_step bsec m s a =
          ⟨[], s.batchWrites ++ [s.pending ++ [a.1]], s.singleWrites⟩ := by
        simp only [buffer_step]
        rw [if_neg hmode, if_pos hfl]
      rw [hstep] at h1 h2 ⊢
      refine ⟨?_, h2⟩
      rw [h1]
      simp [List.flatten_append, List.append_assoc]
    · have hstep : buffer_step bsec m s a =
          ⟨s.pending ++ [a.1], s.batchWrites, s.singleWrites⟩ := by
        simp only [buffer_step]
        rw [if_neg hmode, if_neg hfl]
      rw [hstep] at h1 h2 ⊢
      refine ⟨?_, h2⟩
      rw [h1]
      simp [List.append_assoc]

lemma buffer_loop_content_direct (bsec : ℚ) (m : Nat) (hmode : bsec ≤ 0 ∧ m ≤ 1) :
    ∀ (input : List (Check × Bool)) (s : BufState),
      input.foldl (buffer_step bsec m) s
        = { s with singleWrites := s.singleWrites ++ input.map Prod.fst } := by
  intro input
  induction input with
  | nil =>
    intro s
    simp
  | cons a rest ih =>
    intro s
    rw [List.foldl_cons]
    have hstep : buffer_step bsec m s a =
        ⟨s.pending, s.batchWrites, s.singleWrites ++ [a.1]⟩ := by
      simp only [buffer_step]
      rw [if_pos hmode]
    rw [hstep, ih]
    simp

lemma buffer_loop_counts5 (bsec : ℚ) (hb : ¬(bsec ≤ 0 ∧ (5 : Nat) ≤ 1)) :
    ∀ (input : List (Check × Bool)) (s : BufState),
      (∀ p ∈ input, p.2 = false) →
      s.pending.length < 5 →
      ((input.foldl (buffer_step bsec 5) s).batchWrites.map List.length
          = s.batchWrites.map List.length
            ++ List.replicate ((s.pending.length + input.length) / 5) 5) ∧
      (input.foldl (buffer_step bsec 5) s).pending.length
          = (s.pending.length + input.length) % 5 := by
  intro input
  induction input with
  | nil =>
    intro s _ hlt
    constructor
    · rw [List.length_nil, Nat.add_zero, Nat.div_eq_of_lt hlt]
      simp
    · rw [List.foldl_nil, List.length_nil, Nat.add_zero, Nat.mod_eq_of_lt hlt]
  | cons a rest ih =>
    intro s htr hlt
    have ha : a.2 = false := htr a (by simp)
    rw [List.foldl_cons]
    have htr' : ∀ p ∈ rest, p.2 = false := fun p hp => htr p (by simp [hp])
    by_cases hfl : (5 : Nat) ≤ (s.pending ++ [a.1]).length
    · have hp5 : s.pending.length + 1 = 5 := by
        have := hfl
        simp at this
        omega
      have hstep : buffer_step bsec 5 s a =
          ⟨[], s.batchWrites ++ [s.pending ++ [a.1]], s.singleWrites⟩ := by
        simp only [buffer_step]
        rw [if_neg hb, if_pos (Or.inl hfl)]
      rw [hstep]
      obtain ⟨h1, h2⟩ :=
        ih ⟨[], s.batchWrites ++ [s.pending ++ [a.1]], s.singleWrites⟩ htr' (by simp)
      have hdiv : (s.pending.length + (rest.length + 1)) / 5 = rest.length / 5 + 1 := by
        omega
      have hmod : (s.pending.length + (rest.length + 1)) % 5 = rest.length % 5 := by
        omega
      constructor
      · rw [h1]
        simp only [List.length_cons, hdiv, List.replicate_succ, List.map_append,
          List.length_nil, Nat.zero_add]
        have hlen1 : (s.pending ++ [a.1]).length = 5 := by
          simp
          omega
        simp [hlen1]
      · rw [h2]
        simp only [List.length_cons, hmod, List.length_nil, Nat.zero_add]
    · have hfllen : s.pending.length + 1 < 5 := by
        simp at hfl
        omega
      have hcond : ¬(5 ≤ (s.pending ++ [a.1]).length ∨ a.2 = true) := by
        simp [ha]
        omega
      have hstep : buffer_step bsec 5 s a =
          ⟨s.pending ++ [a.1], s.batchWrites, s.singleWrites⟩ := by
        simp only [buffer_step]
        rw [if_neg hb, if_neg hcond]
      rw [hstep]
      have hlt' : (s.pending ++ [a.1]).length < 5 := by
        simp
        omega
      obtain ⟨h1, h2⟩ :=
        ih ⟨s.pending ++ [a.1], s.batchWrites, s.singleWrites⟩ htr' hlt'
      have harith : (s.pending ++ [a.1]).length + rest.length
          = s.pending.length + (rest.length + 1) := by
        simp
        omega
      constructor
      · rw [h1]
        simp only [harith, List.length_cons]
      · rw [h2]
        simp only [harith, List.length_cons]

lemma buffer_no_loss (bsec : ℚ) (bmax : Nat) (input : List (Check × Bool)) :
    (buffer_finalize (buffer_loop bsec bmax input)).batchWrites.flatten
        ++ (buffer_finalize (buffer_loop bsec bmax input)).singleWrites
      = input.map Prod.fst ∧
    (buffer_finalize (buffer_loop bsec bmax input)).pending = [] := by
  by_cases hmode : ((max 0 bsec) ≤ 0 ∧ (max 1 bmax) ≤ 1)
  · have hloop : buffer_loop bsec bmax input = ⟨[], [], [] ++ input.map Prod.fst⟩ :=
      buffer_loop_content_direct (max 0 bsec) (max 1 bmax) hmode input ⟨[], [], []⟩
    rw [hloop]
    constructor
    · simp [buffer_finalize]
    · simp [buffer_finalize]
  · obtain ⟨h1, h2⟩ :=
      buffer_loop_content_buffered (max 0 bsec) (max 1 bmax) hmode input ⟨[], [], []⟩
    have hloop : buffer_loop bsec bmax input
        = input.foldl (buffer_step (max 0 bsec) (max 1 bmax)) ⟨[], [], []⟩ := rfl
    rw [hloop]
    set st := input.foldl (buffer_step (max 0 bsec) (max 1 bmax))
      (⟨[], [], []⟩ : BufState) with hst
    simp only [List.flatten_nil, List.nil_append, List.append_nil] at h1
    by_cases hpend : st.pending = []
    · have hfin : buffer_finalize st = st := by
        unfold buffer_finalize
        rw [if_pos hpend]
      rw [hfin, h2]
      refine ⟨?_, hpend⟩
      show st.batchWrites.flatten ++ [] = input.map Prod.fst
      rw [List.append_nil, ← h1, hpend, List.append_nil]
    · have hfin : buffer_finalize st =
          ⟨[], st.batchWrites ++ [st.pending], st.singleWrites⟩ := by
        unfold buffer_finalize
        rw [if_neg hpend]
      rw [hfin]
      refine ⟨?_, rfl⟩
      show (st.batchWrites ++ [st.pending]).flatten ++ st.singleWrites = input.map Prod.fst
      rw [h2]
      simp only [List.flatten_append, List.flatten_cons, List.flatten_nil,
        List.append_nil]
      exact h1

/-- C8: with buffer_max = 5 and the time threshold never triggering, a run
over 12 samples performs exactly two in-loop flushes of 5 samples each, and
the unconditional flush on loop termination (the finally block, reached on
normal exit and on cancellation alike) writes the remaining 2; afterwards
the buffer is empty and the flushed batches are exactly the 12 samples in
order.  In general, for every threshold configuration and trigger pattern,
after the final flush nothing remains buffered and the writes
(batched plus write-through) are exactly the input samples: no sample is
lost on shutdown. -/
theorem C8_check_buffer_flushes (bsec : ℚ) (samples : List Check)
    (hlen : samples.length = 12) :
    ((buffer_loop bsec 5 (samples.map fun c => (c, false))).batchWrites.map
        List.length = [5, 5]) ∧
    ((buffer_finalize (buffer_loop bsec 5
        (samples.map fun c => (c, false)))).batchWrites.map
        List.length = [5, 5, 2]) ∧
    (buffer_finalize (buffer_loop bsec 5
        (samples.map fun c => (c, false)))).pending = [] ∧
    (buffer_finalize (buffer_loop bsec 5
        (samples.map fun c => (c, false)))).batchWrites.flatten = samples ∧
    (∀ (bsec2 : ℚ) (bmax : Nat) (input : List (Check × Bool)),
      (buffer_finalize (buffer_loop bsec2 bmax input)).batchWrites.flatten
          ++ (buffer_finalize (buffer_loop bsec2 bmax input)).singleWrites
        = input.map Prod.fst ∧
      (buffer_finalize (buffer_loop bsec2 bmax input)).pending = []) := by
  have hb : ¬((max 0 bsec) ≤ 0 ∧ (5 : Nat) ≤ 1) := fun h => absurd h.2 (by norm_num)
  have hloop : buffer_loop bsec 5 (samples.map fun c => (c, false))
      = (samples.map fun c => (c, false)).foldl
          (buffer_step (max 0 bsec) 5) ⟨[], [], []⟩ := rfl
  have htr : ∀ p ∈ samples.map (fun c => (c, false)), p.2 = false := by
    intro p hp
    obtain ⟨c, hc, rfl⟩ := List.mem_map.mp hp
    rfl
  obtain ⟨hcount, hpend⟩ := buffer_loop_counts5 (max 0 bsec) hb
    (samples.map fun c => (c, false)) ⟨[], [], []⟩ htr (by simp)
  obtain ⟨hflat, hsingle⟩ := buffer_loop_content_buffered (max 0 bsec) 5 hb
    (samples.map fun c => (c, false)) ⟨[], [], []⟩
  rw [hloop]
  set st := (samples.map fun c => (c, false)).foldl
    (buffer_step (max 0 bsec) 5) (⟨[], [], []⟩ : BufState) with hst
  have hmaplen : (samples.map fun c => (c, false)).length = 12 := by simp [hlen]
  rw [hmaplen] at hcount hpend
  have hcount2 : st.batchWrites.map List.length = [5, 5] := by
    rw [hcount]
    rfl
  have hpend2 : st.pending.length = 2 := by
    rw [hpend]
    rfl
  have hfst : (samples.map fun c => (c, false)).map Prod.fst = samples := by
    rw [List.map_map]
    exact List.map_id samples
  have hflat2 : st.batchWrites.flatten ++ st.pending = samples := by
    rw [hflat, hfst]
    rfl
  have hpne : st.pending ≠ [] := by
    intro h
    rw [h] at hpend2
    simp at hpend2
  have hfin : buffer_finalize st =
      ⟨[], st.batchWrites ++ [st.pending], st.singleWrites⟩ := by
    unfold buffer_finalize
    rw [if_neg hpne]
  refine ⟨hcount2, ?_, ?_, ?_, ?_⟩
  · rw [hfin]
    show (st.batchWrites ++ [st.pending]).map List.length = [5, 5, 2]
    rw [List.map_append, hcount2]
    simp [hpend2]
  · rw [hfin]
  · rw [hfin]
    show (st.batchWrites ++ [st.pending]).flatten = samples
    simp only [List.flatten_append, List.flatten_cons, List.flatten_nil,
      List.append_nil]
    exact hflat2
  · exact fun bsec2 bmax input => buffer_no_loss bsec2 bmax input

/-- Twelve concrete samples for the C8 witness. -/
def twelveChecks : List Check := (List.range 12).map fun i => ((i : ℚ), true, (0 : ℚ))

/-- Witness for C8_check_buffer_flushes at buffer_seconds = 600 on
twelveChecks. -/
theorem C8_check_buffer_flushes_witness :
    ((buffer_loop 600 5 (twelveChecks.map fun c => (c, false))).batchWrites.map
        List.length = [5, 5]) ∧
    ((buffer_finalize (buffer_loop 600 5
        (twelveChecks.map fun c => (c, false)))).batchWrites.map
        List.length = [5, 5, 2]) ∧
    (buffer_finalize (buffer_loop 600 5
        (twelveChecks.map fun c => (c, false)))).pending = [] ∧
    (buffer_finalize (buffer_loop 600 5
        (twelveChecks.map fun c => (c, false)))).batchWrites.flatten = twelveChecks ∧
    (∀ (bsec2 : ℚ) (bmax : Nat) (input : List (Check × Bool)),
      (buffer_finalize (buffer_loop bsec2 bmax input)).batchWrites.flatten
          ++ (buffer_finalize (buffer_loop bsec2 bmax input)).singleWrites
        = input.map Prod.fst ∧
      (buffer_finalize (buffer_loop bsec2 bmax input)).pending = []) :=
  C8_check_buffer_flushes 600 twelveChecks rfl

/-! ## speedtest.py, ookla_speedtest.py and run_speedtest_once (C4, C9) -/

/-- speedtest.py, SpeedTestResult. -/
structure SpeedTestResult where
  started_at_monotonic : ℚ
  duration_seconds : ℚ
  bytes_downloaded : Nat
  mbps : ℚ
  error : Option String

/-- speedtest.py, _calc_mbps. -/
def _calc_mbps (bytes_downloaded : Nat) (duration_seconds : ℚ) : ℚ :=
  if duration_seconds ≤ 0 then 0
  else (bytes_downloaded * 8) / duration_seconds / 1000000

/-- The observable behaviour of one HTTP streaming download, the network
and clock being oracles: the chunks the server yielded (size and monotonic
elapsed time right after reading each), whether iteration ended in an
exception (some message — this covers raise_for_status and mid-stream
errors) or cleanly (none), and the elapsed time measured at the end. -/
structure HttpStream where
  chunks : List (Nat × ℚ)
  raises : Option String
  finalElapsed : ℚ

/-- The chunk loop of _download_http: empty chunks are skipped, sizes
accumulate, and the loop breaks once the elapsed time reaches the duration
budget.  Returns the byte total and whether the whole stream was consumed
(no early break). -/
def httpChunkLoop (duration : ℚ) : List (Nat × ℚ) → Nat → Nat × Bool
  | [], total => (total, true)
  | (sz, tAfter) :: rest, total =>
    if sz = 0 then httpChunkLoop duration rest total
    else
      if duration ≤ tAfter then (total + sz, false)
      else httpChunkLoop duration rest (total + sz)

/-- speedtest.py, _download_http: the catch-all except returns a result
carrying the accumulated byte count and the exception text instead of
raising; elapsed is clamped below by 0.001. -/
def _download_http (stream : HttpStream) (duration_seconds : ℚ)
    (_timeout_seconds : ℚ) : SpeedTestResult :=
  let r := httpChunkLoop duration_seconds stream.chunks 0
  let elapsed := max (1/1000) stream.finalElapsed
  if r.2 then
    match stream.raises with
    | some msg => ⟨0, elapsed, r.1, _calc_mbps r.1 elapsed, some msg⟩
    | none => ⟨0, elapsed, r.1, _calc_mbps r.1 elapsed, none⟩
  else ⟨0, elapsed, r.1, _calc_mbps r.1 elapsed, none⟩

/-- The observable behaviour of one FTP download: the parsed hostname
(None when the URL has none), the chunks received (monotonic elapsed time
before each recv, and its size; size 0 is a clean end of data), whether an
exception interrupts once the listed chunks are exhausted, and the final
elapsed time. -/
structure FtpStream where
  hostname : Option String
  chunks : List (ℚ × Nat)
  raises : Option String
  finalElapsed : ℚ

/-- The recv loop of _download_ftp: the while condition checks the elapsed
time before each recv; an empty chunk ends the loop.  Returns the byte
total and whether the oracle's chunk list was exhausted without the loop
stopping on its own. -/
def ftpChunkLoop (duration : ℚ) : List (ℚ × Nat) → Nat → Nat × Bool
  | [], total => (total, true)
  | (tBefore, sz) :: rest, total =>
    if duration ≤ tBefore then (total, false)
    else if sz = 0 then (total, false)
    else ftpChunkLoop duration rest (total + sz)

/-- speedtest.py, _download_ftp: missing hostname yields the fixed error
row; otherwise the recv loop runs and, as in the HTTP path, any exception
is captured into the result. -/
def _download_ftp (stream : FtpStream) (duration_seconds : ℚ)
    (_timeout_seconds : ℚ) : SpeedTestResult :=
  match stream.hostname with
  | none => ⟨0, 1/1000, 0, 0, some "Invalid FTP URL (missing hostname)"⟩
  | some _ =>
    let r := ftpChunkLoop duration_seconds stream.chunks 0
    let elapsed := max (1/1000) stream.finalElapsed
    if r.2 then
      match stream.raises with
      | some msg => ⟨0, elapsed, r.1, _calc_mbps r.1 elapsed, some msg⟩
      | none => ⟨0, elapsed, r.1, _calc_mbps r.1 elapsed, none⟩
    else ⟨0, elapsed, r.1, _calc_mbps r.1 elapsed, none⟩

/-- The characters before the first "://" of a URL, when present. -/
def schemeSplit : List Char → Option (List Char)
  | [] => none
  | ':' :: '/' :: '/' :: _ => some []
  | c :: rest =>
    match schemeSplit rest with
    | some pre => some (c :: pre)
    | none => none

/-- urllib.parse.urlparse(...).scheme, lowercased, for the
scheme://... URL shapes the runner dispatches on. -/
def urlScheme (url : String) : String :=
  match schemeSplit url.data with
  | some pre => String.mk (pre.map Char.toLower)
  | none => ""

/-- speedtest.py, run_speed_test: dispatch on the URL scheme, the two
download paths being modelled by their stream oracles. -/
def run_speed_test (httpStream : HttpStream) (ftpStream : FtpStream)
    (url : String) (duration_seconds : ℚ) (timeout_seconds : ℚ) : SpeedTestResult :=
  if urlScheme url = "http" ∨ urlScheme url = "https" then
    _download_http httpStream duration_seconds timeout_seconds
  else if urlScheme url = "ftp" then
    _download_ftp ftpStream duration_seconds timeout_seconds
  else ⟨0, 1/1000, 0, 0, some ("Unsupported URL scheme: " ++ urlScheme url)⟩

/-- ookla_speedtest.py, OoklaResult. -/
structure OoklaResult where
  duration_seconds : ℚ
  download_mbps : ℚ
  upload_mbps : Option ℚ
  ping_ms : Option ℚ
  server_name : Option String
  server_country : Option String
  error : Option String

/-- A persisted speed_tests row (db.py, record_speed_test). -/
structure SpeedRecord where
  started_at : ℚ
  duration_seconds : ℚ
  bytes_downloaded : Nat
  mbps : ℚ
  error : Option String
  speedtest_mode : Option String
  upload_mbps : Option ℚ
  ping_ms : Option ℚ
  server_name : Option String
  server_country : Option String

/-- The settings rows consulted by run_speedtest_once (db.get_settings):
raw stored strings when present; the duration entry models float(...):
some (some q) parses to q, some none is a malformed value (ValueError,
falling back to the compiled default). -/
structure SpeedSettings where
  speedtest_mode : Option String
  speedtest_url : Option String
  speedtest_duration_seconds : Option (Option ℚ)

/-- The compiled configuration fields used by run_speedtest_once
(config.py, AppConfig). -/
structure SpeedCfg where
  speedtest_skip_if_offline : Bool
  speedtest_url : Option String
  speedtest_duration_seconds : ℚ
  speedtest_timeout_seconds : ℚ

/-- (values.get("speedtest_mode") or "url").strip() -/
def effectiveMode (st : SpeedSettings) : String :=
  let v := st.speedtest_mode.getD ""
  pyStrip (if v = "" then "url" else v)

/-- (values.get("speedtest_url") or cfg.speedtest_url or "").strip() -/
def effectiveUrl (cfg : SpeedCfg) (st : SpeedSettings) : String :=
  let a := st.speedtest_url.getD ""
  pyStrip (if a = "" then cfg.speedtest_url.getD "" else a)

/-- float(values.get("speedtest_duration_seconds", str(cfg default)))
with the ValueError fallback to the compiled default. -/
def effectiveDuration (cfg : SpeedCfg) (st : SpeedSettings) : ℚ :=
  match st.speedtest_duration_seconds with
  | some (some q) => q
  | some none => cfg.speedtest_duration_seconds
  | none => cfg.speedtest_duration_seconds

/-- The skip-if-offline test of run_speedtest_once (scheduler.py, lines
75-79): the flag is set and the current open period exists and is Down. -/
def offline_skip (cfg : SpeedCfg) (current : Option ConnectivityPeriod) : Bool :=
  cfg.speedtest_skip_if_offline &&
    match current with
    | some cur => !cur.is_up
    | none => false

/-- What one invocation of run_speedtest_once persisted and how many
network transfers it performed. -/
structure RunOutcome where
  records : List SpeedRecord
  transfers : Nat

/-- scheduler.py, run_speedtest_once (lines 59-125), its persistence
behaviour: resolve the effective mode, URL and duration from the settings;
skip with the "offline (skipped)" sentinel row when the policy applies;
otherwise dispatch to the ookla client or the URL transfer (both oracles)
or record the "speedtest_url not set (skipped)" sentinel; exactly one row
is written per path.  The runtime flag and thread dispatch do not affect
persistence and are not modelled here. -/
def run_speedtest_once (cfg : SpeedCfg) (st : SpeedSettings)
    (current : Option ConnectivityPeriod) (started_at : ℚ)
    (ookla : String → OoklaResult)
    (transfer : String → ℚ → ℚ → SpeedTestResult) : RunOutcome :=
  let speedtest_mode := effectiveMode st
  let speedtest_url := effectiveUrl cfg st
  let speedtest_duration := effectiveDuration cfg st
  if offline_skip cfg current then
    ⟨[⟨started_at, 0, 0, 0, some "offline (skipped)", some speedtest_mode,
      none, none, none, none⟩], 0⟩
  else if speedtest_mode = "speedtest.net" ∨ speedtest_mode = "speedtest.pl" then
    let result := ookla speedtest_mode
    ⟨[⟨started_at, result.duration_seconds, 0, result.download_mbps, result.error,
      some speedtest_mode, result.upload_mbps, result.ping_ms, result.server_name,
      result.server_country⟩], 1⟩
  else if speedtest_url ≠ "" then
    let result := transfer speedtest_url speedtest_duration cfg.speedtest_timeout_seconds
    ⟨[⟨started_at, result.duration_seconds, result.bytes_downloaded, result.mbps,
      result.error, some speedtest_mode, none, none, none, none⟩], 1⟩
  else
    ⟨[⟨started_at, 0, 0, 0, some "speedtest_url not set (skipped)",
      some speedtest_mode, none, none, none, none⟩], 0⟩

/-- C4: whenever skip-if-offline is enabled and the current open
connectivity period is Down, run_speedtest_once performs no network
transfer and persists exactly one record, with error "offline (skipped)",
bytes_downloaded = 0 and mbps = 0 (and duration 0), regardless of mode,
URL and the transfer oracles. -/
theorem C4_skip_if_offline (cfg : SpeedCfg) (st : SpeedSettings)
    (current : Option ConnectivityPeriod) (started_at : ℚ)
    (ookla : String → OoklaResult) (transfer : String → ℚ → ℚ → SpeedTestResult)
    (cur : ConnectivityPeriod)
    (hskip : cfg.speedtest_skip_if_offline = true)
    (hcur : current = some cur) (hdown : cur.is_up = false) :
    (run_speedtest_once cfg st current started_at ookla transfer).transfers = 0 ∧
    ∃ r, (run_speedtest_once cfg st current started_at ookla transfer).records = [r] ∧
      r.error = some "offline (skipped)" ∧ r.bytes_downloaded = 0 ∧ r.mbps = 0 ∧
      r.duration_seconds = 0 := by
  subst hcur
  have hoff : offline_skip cfg (some cur) = true := by
    unfold offline_skip
    rw [hskip]
    show (true && !cur.is_up) = true
    rw [hdown]
    rfl
  have hrun : run_speedtest_once cfg st (some cur) started_at ookla transfer =
      ⟨[⟨started_at, 0, 0, 0, some "offline (skipped)", some (effectiveMode st),
        none, none, none, none⟩], 0⟩ := by
    simp only [run_speedtest_once]
    rw [hoff]
    rfl
  rw [hrun]
  exact ⟨rfl, ⟨_, rfl, rfl, rfl, rfl, rfl⟩⟩

/-- Witness for C4_skip_if_offline on a concrete Down period. -/
theorem C4_skip_if_offline_witness :
    (run_speedtest_once ⟨true, none, 10, 10⟩ ⟨none, none, none⟩
      (some ⟨1, 0, none, false⟩) 100 (fun _ => ⟨0, 0, none, none, none, none, none⟩)
      (fun _ _ _ => ⟨0, 1, 0, 0, none⟩)).transfers = 0 ∧
    ∃ r, (run_speedtest_once ⟨true, none, 10, 10⟩ ⟨none, none, none⟩
      (some ⟨1, 0, none, false⟩) 100 (fun _ => ⟨0, 0, none, none, none, none, none⟩)
      (fun _ _ _ => ⟨0, 1, 0, 0, none⟩)).records = [r] ∧
      r.error = some "offline (skipped)" ∧ r.bytes_downloaded = 0 ∧ r.mbps = 0 ∧
      r.duration_seconds = 0 :=
  C4_skip_if_offline ⟨true, none, 10, 10⟩ ⟨none, none, none⟩
    (some ⟨1, 0, none, false⟩) 100 (fun _ => ⟨0, 0, none, none, none, none, none⟩)
    (fun _ _ _ => ⟨0, 1, 0, 0, none⟩) ⟨1, 0, none, false⟩ rfl rfl rfl

lemma run_speedtest_once_length (cfg : SpeedCfg) (st : SpeedSettings)
    (current : Option ConnectivityPeriod) (started_at : ℚ)
    (ookla : String → OoklaResult) (transfer : String → ℚ → ℚ → SpeedTestResult) :
    (run_speedtest_once cfg st current started_at ookla transfer).records.length = 1 := by
  simp only [run_speedtest_once]
  split
  · rfl
  · split
    · rfl
    · split
      · rfl
      · rfl

lemma run_speedtest_once_url_branch (cfg : SpeedCfg) (st : SpeedSettings)
    (current : Option ConnectivityPeriod) (started_at : ℚ)
    (ookla : String → OoklaResult) (transfer : String → ℚ → ℚ → SpeedTestResult)
    (hoff : offline_skip cfg current = false)
    (hmode : ¬(effectiveMode st = "speedtest.net" ∨ effectiveMode st = "speedtest.pl"))
    (hurl : effectiveUrl cfg st ≠ "") :
    run_speedtest_once cfg st current started_at ookla transfer =
      ⟨[⟨started_at,
        (transfer (effectiveUrl cfg st) (effectiveDuration cfg st)
          cfg.speedtest_timeout_seconds).duration_seconds,
        (transfer (effectiveUrl cfg st) (effectiveDuration cfg st)
          cfg.speedtest_timeout_seconds).bytes_downloaded,
        (transfer (effectiveUrl cfg st) (effectiveDuration cfg st)
          cfg.speedtest_timeout_seconds).mbps,
        (transfer (effectiveUrl cfg st) (effectiveDuration cfg st)
          cfg.speedtest_timeout_seconds).error,
        some (effectiveMode st), none, none, none, none⟩], 1⟩ := by
  simp only [run_speedtest_once]
  rw [hoff]
  rw [if_neg (by simp)]
  rw [if_neg hmode, if_pos hurl]

lemma download_http_failure (stream : HttpStream) (duration timeout : ℚ) (e : String)
    (hall : (httpChunkLoop duration stream.chunks 0).2 = true)
    (he : stream.raises = some e) :
    _download_http stream duration timeout =
      ⟨0, max (1/1000) stream.finalElapsed,
        (httpChunkLoop duration stream.chunks 0).1,
        _calc_mbps (httpChunkLoop duration stream.chunks 0).1
          (max (1/1000) stream.finalElapsed), some e⟩ := by
  simp only [_download_http]
  rw [hall, he]
  rfl

/-- C9, the claim as the spec states it: one row per invocation, and a
failed invocation's row has zeroed numeric fields.  The second half is
false: an HTTP transfer that fails after yielding data records the partial
byte count (and the mbps computed from it), not zeroes.  Concretely, a
stream yielding one 100-byte chunk and then raising "boom" persists a row
with error = "boom" and bytes_downloaded = 100. -/
theorem C9_zeroed_fields_counterexample :
    ¬ ((∀ (cfg : SpeedCfg) (st : SpeedSettings) (current : Option ConnectivityPeriod)
          (t : ℚ) (ookla : String → OoklaResult)
          (transfer : String → ℚ → ℚ → SpeedTestResult),
          (run_speedtest_once cfg st current t ookla transfer).records.length = 1) ∧
        (∀ (cfg : SpeedCfg) (st : SpeedSettings) (current : Option ConnectivityPeriod)
          (t : ℚ) (ookla : String → OoklaResult) (hs : HttpStream) (fs : FtpStream),
          ∀ r ∈ (run_speedtest_once cfg st current t ookla
              (run_speed_test hs fs)).records,
            r.error.isSome = true →
              r.bytes_downloaded = 0 ∧ r.mbps = 0 ∧ r.duration_seconds = 0)) := by
  intro h
  have hrun : run_speedtest_once ⟨false, none, 10, 10⟩
      ⟨some "url", some "http://h/f", some (some 10)⟩ none 0
      (fun _ => ⟨0, 0, none, none, none, none, none⟩)
      (run_speed_test ⟨[(100, 1)], some "boom", 2⟩ ⟨some "h", [], none, 1⟩) =
      ⟨[⟨0, max (1/1000) 2, 100, _calc_mbps 100 (max (1/1000) 2), some "boom",
        some "url", none, none, none, none⟩], 1⟩ := by
    rw [run_speedtest_once_url_branch ⟨false, none, 10, 10⟩
      ⟨some "url", some "http://h/f", some (some 10)⟩ none 0
      (fun _ => ⟨0, 0, none, none, none, none, none⟩)
      (run_speed_test ⟨[(100, 1)], some "boom", 2⟩ ⟨some "h", [], none, 1⟩)
      rfl (by decide) (by decide)]
    rfl
  have h2 := h.2 ⟨false, none, 10, 10⟩ ⟨some "url", some "http://h/f", some (some 10)⟩
    none 0 (fun _ => ⟨0, 0, none, none, none, none, none⟩)
    ⟨[(100, 1)], some "boom", 2⟩ ⟨some "h", [], none, 1⟩
    ⟨0, max (1/1000) 2, 100, _calc_mbps 100 (max (1/1000) 2), some "boom",
      some "url", none, none, none, none⟩
    (by rw [hrun]; exact List.mem_singleton.mpr rfl) rfl
  exact absurd h2.1 (by decide)

/-- C9 amended: every invocation persists exactly one row whatever the
outcome; a transfer failure is surfaced as a result value, never an
exception, and its row carries the error text with the numeric fields
reflecting the partial transfer — bytes_downloaded is the byte count
accumulated before the failure (zero or more) and mbps is computed from
it — never by omitting the row.  Stated for an HTTP transfer that yields
its chunks and then raises. -/
theorem C9_failure_row_amended (cfg : SpeedCfg) (st : SpeedSettings)
    (current : Option ConnectivityPeriod) (t : ℚ) (ookla : String → OoklaResult)
    (hs : HttpStream) (fs : FtpStream) (e : String)
    (hoff : offline_skip cfg current = false)
    (hmode : ¬(effectiveMode st = "speedtest.net" ∨ effectiveMode st = "speedtest.pl"))
    (hurl : effectiveUrl cfg st ≠ "")
    (hscheme : urlScheme (effectiveUrl cfg st) = "http")
    (hall : (httpChunkLoop (effectiveDuration cfg st) hs.chunks 0).2 = true)
    (he : hs.raises = some e) :
    (∀ (cfg2 : SpeedCfg) (st2 : SpeedSettings) (current2 : Option ConnectivityPeriod)
        (t2 : ℚ) (ookla2 : String → OoklaResult)
        (transfer2 : String → ℚ → ℚ → SpeedTestResult),
      (run_speedtest_once cfg2 st2 current2 t2 ookla2 transfer2).records.length = 1) ∧
    ∃ r, (run_speedtest_once cfg st current t ookla
        (run_speed_test hs fs)).records = [r] ∧
      r.error = some e ∧
      r.bytes_downloaded = (httpChunkLoop (effectiveDuration cfg st) hs.chunks 0).1 ∧
      r.mbps = _calc_mbps (httpChunkLoop (effectiveDuration cfg st) hs.chunks 0).1
        (max (1/1000) hs.finalElapsed) := by
  refine ⟨run_speedtest_once_length, ?_⟩
  have htr : run_speed_test hs fs (effectiveUrl cfg st) (effectiveDuration cfg st)
      cfg.speedtest_timeout_seconds =
      _download_http hs (effectiveDuration cfg st) cfg.speedtest_timeout_seconds := by
    unfold run_speed_test
    rw [if_pos (Or.inl hscheme)]
  have hrun := run_speedtest_once_url_branch cfg st current t ookla
    (run_speed_test hs fs) hoff hmode hurl
  rw [htr, download_http_failure hs (effectiveDuration cfg st)
    cfg.speedtest_timeout_seconds e hall he] at hrun
  rw [hrun]
  exact ⟨_, rfl, rfl, rfl, rfl⟩

/-- Witness for C9_failure_row_amended: url mode, http://h/f, a stream
yielding 100 bytes then raising "boom". -/
theorem C9_failure_row_amended_witness :
    (∀ (cfg2 : SpeedCfg) (st2 : SpeedSettings) (current2 : Option ConnectivityPeriod)
        (t2 : ℚ) (ookla2 : String → OoklaResult)
        (transfer2 : String → ℚ → ℚ → SpeedTestResult),
      (run_speedtest_once cfg2 st2 current2 t2 ookla2 transfer2).records.length = 1) ∧
    ∃ r, (run_speedtest_once ⟨false, none, 10, 10⟩
        ⟨some "url", some "http://h/f", some (some 10)⟩ none 0
        (fun _ => ⟨0, 0, none, none, none, none, none⟩)
        (run_speed_test ⟨[(100, 1)], some "boom", 2⟩
          ⟨some "h", [], none, 1⟩)).records = [r] ∧
      r.error = some "boom" ∧
      r.bytes_downloaded = (httpChunkLoop
        (effectiveDuration ⟨false, none, 10, 10⟩
          ⟨some "url", some "http://h/f", some (some 10)⟩)
        (⟨[(100, 1)], some "boom", 2⟩ : HttpStream).chunks 0).1 ∧
      r.mbps = _calc_mbps (httpChunkLoop
        (effectiveDuration ⟨false, none, 10, 10⟩
          ⟨some "url", some "http://h/f", some (some 10)⟩)
        (⟨[(100, 1)], some "boom", 2⟩ : HttpStream).chunks 0).1
        (max (1/1000) (⟨[(100, 1)], some "boom", 2⟩ : HttpStream).finalElapsed) :=
  C9_failure_row_amended ⟨false, none, 10, 10⟩
    ⟨some "url", some "http://h/f", some (some 10)⟩ none 0
    (fun _ => ⟨0, 0, none, none, none, none, none⟩)
    ⟨[(100, 1)], some "boom", 2⟩ ⟨some "h", [], none, 1⟩ "boom"
    rfl (by decide) (by decide) (by decide) (by decide) rfl

end Speedtest
